import Mathlib

set_option maxRecDepth 4000

attribute [local semireducible] Rat.add Rat.mul Rat.inv Rat.sub

/-!
Shallow embedding of the `ComptabiliteBTP` ledger from `src/app.py`.

The SQLite database is modelled by `DBState`: the `transactions` table (a list
in insertion order, ids assigned by AUTOINCREMENT via `next_id`), and the
`comptes` table (a list of accounts).  `DATE` values are modelled by the
`DateD` triple (the stored ISO string `YYYY-MM-DD` compares like the numeric
key `DateD.cle` for calendar dates).

`REAL` columns hold IEEE binary64 doubles.  A stored double denotes an exact
rational, so column values are carried as `Rat`; what is NOT exact in the
program is arithmetic ON those values: the balance `UPDATE`s and `SUM()`
round every operation to 53 significant bits.  `arrondi` implements that
rounding (round to nearest, ties to even) and the `…64` operations
(`majSolde64`, `ajouter_transaction64`, `supprimer_transaction64`,
`sommeReelle`) are the rounding-faithful semantics of the writes and of
`SUM()`.  The un-suffixed operations keep exact rational arithmetic; they are
the idealised reference used by the claims whose content does not depend on
rounding, and the no-rounding side conditions of the others are stated as
agreement between the two.

A SQLite connection is modelled by `Conn`: statements execute against the
`pending` state; `commit` publishes `pending` to `durable`; closing a
connection after a rollback (the `except` branches of `ajouter_transaction`
and `supprimer_transaction`) discards `pending`.  `runOps` executes a script
of statements with an optional fault injection point: `some k` means the
`(k+1)`-st statement raises, so the statements from position `k` on never
execute and the uncommitted changes are rolled back.
-/

structure DateD where
  annee : Nat
  mois : Nat
  jour : Nat
deriving DecidableEq

/-- Sort key realising SQLite text comparison of ISO dates `YYYY-MM-DD`. -/
def DateD.cle (d : DateD) : Nat := d.annee * 10000 + d.mois * 100 + d.jour

/-- One row of the `comptes` table (`src/app.py` lines 54-61). -/
structure Compte where
  code_compte : String
  nom_compte : String
  type_compte : String
  solde_actuel : Rat
deriving DecidableEq

/-- One row of the `transactions` table (`src/app.py` lines 37-51). -/
structure Transaction where
  id : Nat
  date_transaction : DateD
  compte_debit : String
  compte_credit : String
  montant : Rat
  description : String
  type_transaction : String
  reference_bdc : Option String
  responsable : Option String
  statut : String
deriving DecidableEq

/-- The whole database file. -/
structure DBState where
  transactions : List Transaction
  comptes : List Compte
  next_id : Nat
deriving DecidableEq

/-- Row-wise effect of
`UPDATE comptes SET solde_actuel = solde_actuel + ? WHERE code_compte = ?`:
a row whose code does not match is untouched.  The addition here is exact
rational arithmetic — the idealised reference; the program's `REAL` addition
rounds, see `majSolde64`. -/
def majSolde (montant : Rat) (code : String) (c : Compte) : Compte :=
  if c.code_compte = code then { c with solde_actuel := c.solde_actuel + montant } else c

/-- The whole `UPDATE` statement: applied to every row; a code absent from the
table makes the statement a no-op.  (Exact-arithmetic reference; the program's
`REAL` rounding is `update_solde64`.) -/
def update_solde (comptes : List Compte) (montant : Rat) (code : String) : List Compte :=
  comptes.map (majSolde montant code)

/-! ### IEEE binary64 rounding of the `REAL` columns

SQLite stores `montant` and `solde_actuel` as `REAL` (binary64) and evaluates
`solde_actuel + ?` and `SUM(montant)` in binary64, rounding each operation to
53 significant bits, to nearest, ties to even.  `arrondi` implements that
rounding on the rationals denoted by the doubles.  The binary64 exponent
range (overflow above `2^1024`, subnormals below `2^-1022`) is not modelled:
every value in this development is far inside the normal range, where
binary64 arithmetic is exactly `arrondi` of the exact result. -/

/-- Fuel-bounded floor of the base-2 logarithm (`Nat.rec` so that it reduces
lazily); fuel 1100 covers every magnitude up to `2^1100`, far beyond the
binary64 range. -/
def log2Fuel (fuel : Nat) : Nat → Nat :=
  Nat.rec (motive := fun _ => Nat → Nat)
    (fun _ => 0)
    (fun _ ih n => if n < 2 then 0 else ih (n / 2) + 1)
    fuel

/-- Does `2 ^ e ≤ a / d` hold?  (Integer-only comparison.) -/
def puissanceDeuxLe (a d : Nat) (e : Int) : Bool :=
  if 0 ≤ e then decide (2 ^ e.toNat * d ≤ a) else decide (d ≤ a * 2 ^ (-e).toNat)

/-- The exponent `e` with `2 ^ e ≤ a / d < 2 ^ (e + 1)` (for `a, d ≥ 1`): the
log-difference estimate is exact or one too large, so one correction step
suffices. -/
def exposantBinaire (a d : Nat) : Int :=
  let e0 : Int := (log2Fuel 1100 a : Int) - (log2Fuel 1100 d : Int)
  if puissanceDeuxLe a d e0 then e0 else e0 - 1

/-- Round the positive rational `a / d` to 53 significant bits, to nearest,
ties to even: scale into `[2^52, 2^53)`, round the scaled value to an integer
(half-to-even), scale back. -/
def arrondiPos (a d : Nat) : Rat :=
  let e := exposantBinaire a d
  let s : Int := 52 - e
  let A := if 0 ≤ s then a * 2 ^ s.toNat else a
  let D := if 0 ≤ s then d else d * 2 ^ (-s).toNat
  let n0 := A / D
  let r := A % D
  let n := if 2 * r < D then n0 else if D < 2 * r then n0 + 1
    else (if n0 % 2 = 0 then n0 else n0 + 1)
  if 0 ≤ s then (n : Rat) / ((2 ^ s.toNat : Nat) : Rat)
  else (n : Rat) * ((2 ^ (-s).toNat : Nat) : Rat)

/-- Binary64 rounding of a rational (round to nearest, ties to even; the
rounding is sign-symmetric). -/
def arrondi (q : Rat) : Rat :=
  if q = 0 then 0
  else if 0 < q then arrondiPos q.num.natAbs q.den
  else - arrondiPos q.num.natAbs q.den

/-- Rounding-faithful row-wise effect of
`UPDATE comptes SET solde_actuel = solde_actuel + ? WHERE code_compte = ?`:
the `REAL` addition rounds to binary64. -/
def majSolde64 (montant : Rat) (code : String) (c : Compte) : Compte :=
  if c.code_compte = code then
    { c with solde_actuel := arrondi (c.solde_actuel + montant) } else c

/-- Rounding-faithful `UPDATE` over the whole `comptes` table. -/
def update_solde64 (comptes : List Compte) (montant : Rat) (code : String) : List Compte :=
  comptes.map (majSolde64 montant code)

/-- Rounding-faithful `SUM()` over `REAL`: SQLite accumulates in a binary64
register, rounding after each addition, scanning rows in stored order. -/
def sommeReelle (l : List Rat) : Rat :=
  l.foldl (fun acc x => arrondi (acc + x)) 0

/-- The SQL statements issued by the two write methods. -/
inductive SqlOp where
  | insertTransaction (date_trans : DateD) (compte_debit compte_credit : String)
      (montant : Rat) (description type_trans : String) (ref_bdc responsable : Option String)
  | updateSolde (montant : Rat) (code_compte : String)
  | deleteTransaction (transaction_id : Nat)
  | commitOp
deriving DecidableEq

/-- A SQLite connection: `durable` is the database file, `pending` the
uncommitted view seen by the connection's cursor. -/
structure Conn where
  durable : DBState
  pending : DBState
deriving DecidableEq

def Conn.ouvrir (db : DBState) : Conn := ⟨db, db⟩

/-- Execute one statement on a connection. -/
def execOp (c : Conn) : SqlOp → Conn
  | .insertTransaction d deb cred m desc ty ref resp =>
      { c with pending := { c.pending with
          transactions := c.pending.transactions ++
            [{ id := c.pending.next_id, date_transaction := d, compte_debit := deb,
               compte_credit := cred, montant := m, description := desc,
               type_transaction := ty, reference_bdc := ref, responsable := resp,
               statut := "Validé" }],
          next_id := c.pending.next_id + 1 } }
  | .updateSolde m code =>
      { c with pending := { c.pending with comptes := update_solde c.pending.comptes m code } }
  | .deleteTransaction i =>
      { c with pending := { c.pending with
          transactions := c.pending.transactions.filter fun t => decide (t.id ≠ i) } }
  | .commitOp => { c with durable := c.pending }

/-- Run a statement script.  `fault = some k` injects an exception at the
`(k+1)`-st statement: the remaining statements are skipped, and since only
`durable` survives `conn.close()`, the uncommitted `pending` is discarded
(the code's `conn.rollback()` plus `conn.close()`). -/
def runOps : Option Nat → List SqlOp → Conn → Conn
  | _, [], c => c
  | some 0, _ :: _, c => c
  | some (k + 1), op :: rest, c => runOps (some k) rest (execOp c op)
  | none, op :: rest, c => runOps none rest (execOp c op)

/-- Statement script of `ajouter_transaction` (`src/app.py` lines 88-103):
insert the row, add `montant` to the debit account's balance, subtract it from
the credit account's balance, commit. -/
def ajouter_ops (date_trans : DateD) (compte_debit compte_credit : String) (montant : Rat)
    (description type_trans : String) (ref_bdc responsable : Option String) : List SqlOp :=
  [.insertTransaction date_trans compte_debit compte_credit montant description type_trans
     ref_bdc responsable,
   .updateSolde montant compte_debit,
   .updateSolde (-montant) compte_credit,
   .commitOp]

/-- `ajouter_transaction` run with a fault injection point; the result is the
durable database after `conn.close()`. -/
def run_ajouter (fault : Option Nat) (st : DBState) (date_trans : DateD)
    (compte_debit compte_credit : String) (montant : Rat) (description type_trans : String)
    (ref_bdc responsable : Option String) : DBState :=
  (runOps fault
    (ajouter_ops date_trans compte_debit compte_credit montant description type_trans
       ref_bdc responsable)
    (Conn.ouvrir st)).durable

/-- `ComptabiliteBTP.ajouter_transaction` (`src/app.py` lines 82-111), fault-free
run: returns the new state plus the `(True, message)` result.  Balance
arithmetic is the exact reference (`update_solde`); the rounding-faithful
variant is `ajouter_transaction64`. -/
def ajouter_transaction (st : DBState) (date_trans : DateD) (compte_debit compte_credit : String)
    (montant : Rat) (description type_trans : String) (ref_bdc responsable : Option String) :
    DBState × Bool × String :=
  (run_ajouter none st date_trans compte_debit compte_credit montant description type_trans
     ref_bdc responsable,
   true, "Transaction ajoutée avec succès")

/-- Statement script of the found branch of `supprimer_transaction`
(`src/app.py` lines 162-169): reverse the two balance movements, delete the
row, commit. -/
def supprimer_ops (t : Transaction) (transaction_id : Nat) : List SqlOp :=
  [.updateSolde (-t.montant) t.compte_debit,
   .updateSolde t.montant t.compte_credit,
   .deleteTransaction transaction_id,
   .commitOp]

/-- `supprimer_transaction` run with a fault injection point. -/
def run_supprimer (fault : Option Nat) (st : DBState) (transaction_id : Nat) : DBState :=
  match st.transactions.find? (fun t => decide (t.id = transaction_id)) with
  | some t => (runOps fault (supprimer_ops t transaction_id) (Conn.ouvrir st)).durable
  | none => st

/-- `ComptabiliteBTP.supprimer_transaction` (`src/app.py` lines 148-179),
fault-free run.  Balance arithmetic is the exact reference; the
rounding-faithful variant is `supprimer_transaction64`. -/
def supprimer_transaction (st : DBState) (transaction_id : Nat) : DBState × Bool × String :=
  match st.transactions.find? (fun t => decide (t.id = transaction_id)) with
  | some t =>
      ((runOps none (supprimer_ops t transaction_id) (Conn.ouvrir st)).durable,
       true, "Transaction supprimée avec succès")
  | none => (st, false, "Transaction non trouvée")

/-- The five seed accounts (`src/app.py` lines 64-70). -/
def comptes_principaux : List (String × String × String) :=
  [("INVEST", "Investissement", "ACTIF"),
   ("SYS_BDC", "Système BDC", "ACTIF"),
   ("DEP_OP", "Dépenses Opérationnelles", "CHARGE"),
   ("CHARGE_FIX", "Charges Fixes", "CHARGE"),
   ("RECETTES", "Recettes", "PRODUIT")]

/-- `ComptabiliteBTP.init_database` (`src/app.py` lines 31-80): seeds the
`comptes` table (balance defaulting to 0) only when it is empty. -/
def init_database (st : DBState) : DBState :=
  if st.comptes.isEmpty then
    { st with comptes := comptes_principaux.map fun p =>
        { code_compte := p.1, nom_compte := p.2.1, type_compte := p.2.2, solde_actuel := 0 } }
  else st

/-- A fresh database file before `init_database` (AUTOINCREMENT starts at 1). -/
def base_vide : DBState := { transactions := [], comptes := [], next_id := 1 }

/-- The state produced by `ComptabiliteBTP.__init__`. -/
def etat_initial : DBState := init_database base_vide

/-- Stable insertion step for `ORDER BY date_transaction DESC`: `t` is placed
after every element with a strictly later date, before the first element whose
date is not later. -/
def insertByDateDesc (t : Transaction) : List Transaction → List Transaction
  | [] => [t]
  | u :: us =>
      if t.date_transaction.cle < u.date_transaction.cle then u :: insertByDateDesc t us
      else t :: u :: us

/-- Stable sort realising `ORDER BY date_transaction DESC` over the table. -/
def sortByDateDesc : List Transaction → List Transaction
  | [] => []
  | t :: ts => insertByDateDesc t (sortByDateDesc ts)

/-- `ComptabiliteBTP.get_transactions` (`src/app.py` lines 113-131).  The
Python `if limit:` guard is falsy for `None` and for `0`; SQLite `LIMIT n`
with negative `n` returns all rows. -/
def get_transactions (st : DBState) (limit : Option Int) : List Transaction :=
  let tri := sortByDateDesc st.transactions
  match limit with
  | none => tri
  | some n => if n = 0 then tri else if n < 0 then tri else tri.take n.toNat

/-- First-appearance deduplication, realising the grouping key set of
`GROUP BY type_transaction`. -/
def firstDistinct : List String → List String
  | [] => []
  | c :: cs => c :: (firstDistinct cs).filter fun x => decide (x ≠ c)

/-- Row filter of the monthly summary: `strftime` year and month of the stored
ISO date equal the requested ones. -/
def dansMois (annee mois : Nat) (t : Transaction) : Bool :=
  decide (t.date_transaction.annee = annee ∧ t.date_transaction.mois = mois)

/-- `ComptabiliteBTP.get_synthese_mensuelle` (`src/app.py` lines 181-203).
The Python `if not annee:` / `if not mois:` guards replace `None` or `0` with
the current year/month (`annee_courante`, `mois_courant`); `SUM(montant)`
accumulates in binary64 (`sommeReelle`). -/
def get_synthese_mensuelle (st : DBState) (annee mois : Option Nat)
    (annee_courante mois_courant : Nat) : List (String × Rat) :=
  let a := match annee with
    | none => annee_courante
    | some y => if y = 0 then annee_courante else y
  let mo := match mois with
    | none => mois_courant
    | some m => if m = 0 then mois_courant else m
  let lignes := st.transactions.filter (dansMois a mo)
  (firstDistinct (lignes.map (·.type_transaction))).map fun ty =>
    (ty, sommeReelle ((lignes.filter fun t => decide (t.type_transaction = ty)).map
      (·.montant)))

/-- The form-submission validation errors of `main` (`src/app.py` lines 384-390). -/
inductive ErreurFormulaire where
  | comptes_identiques
  | montant_non_positif
  | description_vide
deriving DecidableEq

/-- The `record` path of `main` (`src/app.py` lines 384-402): the three
validations, in source order, each short-circuiting with no call into
`ajouter_transaction`; when all pass, `ajouter_transaction` runs. -/
def soumettre_transaction (st : DBState) (date_trans : DateD)
    (compte_debit compte_credit : String) (montant : Rat) (description type_trans : String)
    (ref_bdc responsable : Option String) : DBState × Option ErreurFormulaire :=
  if compte_debit = compte_credit then (st, some .comptes_identiques)
  else if montant ≤ 0 then (st, some .montant_non_positif)
  else if description.trim = "" then (st, some .description_vide)
  else
    ((ajouter_transaction st date_trans compte_debit compte_credit montant description
        type_trans ref_bdc responsable).1,
     none)

/-- Sum of all account balances (`sum(account.balance for account in registry)`). -/
def sumSoldes (st : DBState) : Rat := (st.comptes.map (·.solde_actuel)).sum

/-- Sum of the amounts of the stored transactions debiting `code`. -/
def totalDebit (ts : List Transaction) (code : String) : Rat :=
  ((ts.filter fun t => decide (t.compte_debit = code)).map (·.montant)).sum

/-- Sum of the amounts of the stored transactions crediting `code`. -/
def totalCredit (ts : List Transaction) (code : String) : Rat :=
  ((ts.filter fun t => decide (t.compte_credit = code)).map (·.montant)).sum

/-- Each account's balance equals debit total minus credit total over the
currently stored transactions. -/
def SoldesCoherents (st : DBState) : Prop :=
  ∀ c ∈ st.comptes,
    c.solde_actuel = totalDebit st.transactions c.code_compte -
      totalCredit st.transactions c.code_compte

instance (st : DBState) : Decidable (SoldesCoherents st) := by
  unfold SoldesCoherents; infer_instance

/-- States reachable from the initialised registry by arbitrary
record (`ajouter_transaction`) and reverse (`supprimer_transaction`) calls. -/
inductive Reachable : DBState → Prop where
  | init : Reachable etat_initial
  | record (st : DBState) (d : DateD) (deb cred : String) (m : Rat) (desc ty : String)
      (ref resp : Option String) : Reachable st →
      Reachable (ajouter_transaction st d deb cred m desc ty ref resp).1
  | reverse (st : DBState) (i : Nat) : Reachable st →
      Reachable (supprimer_transaction st i).1

/-- States reachable when every record call's debit and credit codes exist in
the registry (the only discipline the Streamlit selectboxes enforce). -/
inductive ReachableValide : DBState → Prop where
  | init : ReachableValide etat_initial
  | record (st : DBState) (d : DateD) (deb cred : String) (m : Rat) (desc ty : String)
      (ref resp : Option String)
      (hdeb : deb ∈ st.comptes.map (·.code_compte))
      (hcred : cred ∈ st.comptes.map (·.code_compte)) : ReachableValide st →
      ReachableValide (ajouter_transaction st d deb cred m desc ty ref resp).1
  | reverse (st : DBState) (i : Nat) : ReachableValide st →
      ReachableValide (supprimer_transaction st i).1

/-! ### Basic unfolding lemmas -/

/-- The row inserted by `ajouter_transaction` into a state `st`. -/
def nouvelle_transaction (st : DBState) (d : DateD) (deb cred : String) (m : Rat)
    (desc ty : String) (ref resp : Option String) : Transaction :=
  { id := st.next_id, date_transaction := d, compte_debit := deb, compte_credit := cred,
    montant := m, description := desc, type_transaction := ty, reference_bdc := ref,
    responsable := resp, statut := "Validé" }

theorem ajouter_transaction_etat (st : DBState) (d : DateD) (deb cred : String) (m : Rat)
    (desc ty : String) (ref resp : Option String) :
    (ajouter_transaction st d deb cred m desc ty ref resp).1 =
      { transactions := st.transactions ++ [nouvelle_transaction st d deb cred m desc ty ref resp],
        comptes := update_solde (update_solde st.comptes m deb) (-m) cred,
        next_id := st.next_id + 1 } := rfl

theorem supprimer_transaction_trouve {st : DBState} {i : Nat} {t : Transaction}
    (h : st.transactions.find? (fun t => decide (t.id = i)) = some t) :
    supprimer_transaction st i =
      ({ transactions := st.transactions.filter fun x => decide (x.id ≠ i),
         comptes := update_solde (update_solde st.comptes (-t.montant) t.compte_debit)
           t.montant t.compte_credit,
         next_id := st.next_id }, true, "Transaction supprimée avec succès") := by
  unfold supprimer_transaction
  rw [h]
  rfl

theorem supprimer_transaction_absent {st : DBState} {i : Nat}
    (h : st.transactions.find? (fun t => decide (t.id = i)) = none) :
    supprimer_transaction st i = (st, false, "Transaction non trouvée") := by
  unfold supprimer_transaction
  rw [h]

/-! ### Rounding-faithful write operations

`ajouter_transaction64` and `supprimer_transaction64` are
`ComptabiliteBTP.ajouter_transaction` / `supprimer_transaction` with the
`REAL` balance `UPDATE`s rounding in binary64 (`majSolde64`); everything else
(insert, lookup, delete, messages) is identical to the exact-arithmetic
reference, whose committed effect `ajouter_transaction_etat` /
`supprimer_transaction_trouve` make explicit. -/

/-- `ajouter_transaction` (`src/app.py` lines 82-111) with binary64 rounding
in the two balance updates. -/
def ajouter_transaction64 (st : DBState) (date_trans : DateD)
    (compte_debit compte_credit : String) (montant : Rat) (description type_trans : String)
    (ref_bdc responsable : Option String) : DBState × Bool × String :=
  ({ transactions := st.transactions ++
      [nouvelle_transaction st date_trans compte_debit compte_credit montant description
        type_trans ref_bdc responsable],
     comptes := update_solde64 (update_solde64 st.comptes montant compte_debit)
       (-montant) compte_credit,
     next_id := st.next_id + 1 },
   true, "Transaction ajoutée avec succès")

/-- `supprimer_transaction` (`src/app.py` lines 148-179) with binary64
rounding in the two balance updates. -/
def supprimer_transaction64 (st : DBState) (transaction_id : Nat) : DBState × Bool × String :=
  match st.transactions.find? (fun t => decide (t.id = transaction_id)) with
  | some t =>
      ({ transactions := st.transactions.filter fun x => decide (x.id ≠ transaction_id),
         comptes := update_solde64 (update_solde64 st.comptes (-t.montant) t.compte_debit)
           t.montant t.compte_credit,
         next_id := st.next_id },
       true, "Transaction supprimée avec succès")
  | none => (st, false, "Transaction non trouvée")

/-- Program-level reachability: any sequence of record/reverse calls from the
initialized registry, binary64 rounding included. -/
inductive Reachable64 : DBState → Prop where
  | init : Reachable64 etat_initial
  | record (st : DBState) (d : DateD) (deb cred : String) (m : Rat) (desc ty : String)
      (ref resp : Option String) : Reachable64 st →
      Reachable64 (ajouter_transaction64 st d deb cred m desc ty ref resp).1
  | reverse (st : DBState) (i : Nat) : Reachable64 st →
      Reachable64 (supprimer_transaction64 st i).1

/-- Reachability where every record call's debit and credit codes exist in the
registry (the discipline the Streamlit selectboxes enforce), with binary64
rounding. -/
inductive ReachableValide64 : DBState → Prop where
  | init : ReachableValide64 etat_initial
  | record (st : DBState) (d : DateD) (deb cred : String) (m : Rat) (desc ty : String)
      (ref resp : Option String)
      (hdeb : deb ∈ st.comptes.map (·.code_compte))
      (hcred : cred ∈ st.comptes.map (·.code_compte)) : ReachableValide64 st →
      ReachableValide64 (ajouter_transaction64 st d deb cred m desc ty ref resp).1
  | reverse (st : DBState) (i : Nat) : ReachableValide64 st →
      ReachableValide64 (supprimer_transaction64 st i).1

/-- Reachability along which no balance `UPDATE` ever rounds: every step's
binary64 effect coincides with the exact-arithmetic effect. -/
inductive Reachable64SansArrondi : DBState → Prop where
  | init : Reachable64SansArrondi etat_initial
  | record (st : DBState) (d : DateD) (deb cred : String) (m : Rat) (desc ty : String)
      (ref resp : Option String)
      (hexact : (ajouter_transaction64 st d deb cred m desc ty ref resp).1 =
        (ajouter_transaction st d deb cred m desc ty ref resp).1) :
      Reachable64SansArrondi st →
      Reachable64SansArrondi (ajouter_transaction64 st d deb cred m desc ty ref resp).1
  | reverse (st : DBState) (i : Nat)
      (hexact : (supprimer_transaction64 st i).1 = (supprimer_transaction st i).1) :
      Reachable64SansArrondi st →
      Reachable64SansArrondi (supprimer_transaction64 st i).1

/-- Registered codes and no rounding combined. -/
inductive ReachableValideSansArrondi : DBState → Prop where
  | init : ReachableValideSansArrondi etat_initial
  | record (st : DBState) (d : DateD) (deb cred : String) (m : Rat) (desc ty : String)
      (ref resp : Option String)
      (hdeb : deb ∈ st.comptes.map (·.code_compte))
      (hcred : cred ∈ st.comptes.map (·.code_compte))
      (hexact : (ajouter_transaction64 st d deb cred m desc ty ref resp).1 =
        (ajouter_transaction st d deb cred m desc ty ref resp).1) :
      ReachableValideSansArrondi st →
      ReachableValideSansArrondi (ajouter_transaction64 st d deb cred m desc ty ref resp).1
  | reverse (st : DBState) (i : Nat)
      (hexact : (supprimer_transaction64 st i).1 = (supprimer_transaction st i).1) :
      ReachableValideSansArrondi st →
      ReachableValideSansArrondi (supprimer_transaction64 st i).1

theorem reachable64_sans_arrondi_exact {st : DBState} (h : Reachable64SansArrondi st) :
    Reachable st := by
  induction h with
  | init => exact Reachable.init
  | record st d deb cred m desc ty ref resp hexact _ ih =>
      rw [hexact]
      exact Reachable.record st d deb cred m desc ty ref resp ih
  | reverse st i hexact _ ih =>
      rw [hexact]
      exact Reachable.reverse st i ih

theorem reachableValide_sans_arrondi_exact {st : DBState}
    (h : ReachableValideSansArrondi st) : ReachableValide st := by
  induction h with
  | record st d deb cred m desc ty ref resp hdeb hcred hexact _ ih =>
      rw [hexact]
      exact ReachableValide.record st d deb cred m desc ty ref resp hdeb hcred ih
  | reverse st i hexact _ ih =>
      rw [hexact]
      exact ReachableValide.reverse st i ih
  | init => exact ReachableValide.init

/-! ### Lemmas on the date-descending sort of `get_transactions` -/

theorem insertByDateDesc_perm (t : Transaction) (l : List Transaction) :
    (insertByDateDesc t l).Perm (t :: l) := by
  induction l with
  | nil => exact List.Perm.refl _
  | cons u us ih =>
      unfold insertByDateDesc
      split
      · exact (ih.cons u).trans (List.Perm.swap t u us)
      · exact List.Perm.refl _

theorem sortByDateDesc_perm (l : List Transaction) : (sortByDateDesc l).Perm l := by
  induction l with
  | nil => exact List.Perm.refl _
  | cons t ts ih => exact (insertByDateDesc_perm t (sortByDateDesc ts)).trans (ih.cons t)

theorem insertByDateDesc_pairwise {t : Transaction} {l : List Transaction}
    (h : l.Pairwise (fun a b => b.date_transaction.cle ≤ a.date_transaction.cle)) :
    (insertByDateDesc t l).Pairwise
      (fun a b => b.date_transaction.cle ≤ a.date_transaction.cle) := by
  induction l with
  | nil => simp [insertByDateDesc]
  | cons u us ih =>
      rw [List.pairwise_cons] at h
      unfold insertByDateDesc
      split
      · rename_i hlt
        rw [List.pairwise_cons]
        refine ⟨?_, ih h.2⟩
        intro x hx
        rcases List.mem_cons.mp ((insertByDateDesc_perm t us).mem_iff.mp hx) with hx | hx
        · subst hx; exact Nat.le_of_lt hlt
        · exact h.1 x hx
      · rename_i hge
        rw [List.pairwise_cons]
        refine ⟨?_, List.pairwise_cons.mpr h⟩
        intro x hx
        rcases List.mem_cons.mp hx with hx | hx
        · subst hx; exact Nat.le_of_not_lt hge
        · exact le_trans (h.1 x hx) (Nat.le_of_not_lt hge)

theorem sortByDateDesc_pairwise (l : List Transaction) :
    (sortByDateDesc l).Pairwise
      (fun a b => b.date_transaction.cle ≤ a.date_transaction.cle) := by
  induction l with
  | nil => simp [sortByDateDesc]
  | cons t ts ih => exact insertByDateDesc_pairwise ih

theorem insertByDateDesc_filter_cle (t : Transaction) (l : List Transaction) (k : Nat) :
    (insertByDateDesc t l).filter (fun x => decide (x.date_transaction.cle = k)) =
      (if t.date_transaction.cle = k then [t] else []) ++
        l.filter (fun x => decide (x.date_transaction.cle = k)) := by
  induction l with
  | nil =>
      by_cases h : t.date_transaction.cle = k <;> simp [insertByDateDesc, List.filter, h]
  | cons u us ih =>
      unfold insertByDateDesc
      split
      · rename_i hlt
        by_cases hu : u.date_transaction.cle = k
        · have htk : ¬ t.date_transaction.cle = k := by omega
          simp [List.filter_cons, hu, htk] at ih ⊢
          exact ih
        · simp only [List.filter_cons, decide_eq_true_eq, hu, if_neg hu, ite_false, ih]
      · simp only [List.filter_cons, decide_eq_true_eq]
        by_cases ht : t.date_transaction.cle = k <;>
          by_cases hu : u.date_transaction.cle = k <;>
            simp [ht, hu, List.filter_cons]

theorem sortByDateDesc_filter_cle (l : List Transaction) (k : Nat) :
    (sortByDateDesc l).filter (fun x => decide (x.date_transaction.cle = k)) =
      l.filter (fun x => decide (x.date_transaction.cle = k)) := by
  induction l with
  | nil => rfl
  | cons t ts ih =>
      show (insertByDateDesc t (sortByDateDesc ts)).filter _ = _
      rw [insertByDateDesc_filter_cle, ih]
      by_cases ht : t.date_transaction.cle = k <;> simp [List.filter_cons, ht]

/-! ### Run lemmas for the fault-injection model -/

theorem runOps_ge (ops : List SqlOp) (k : Nat) (h : ops.length ≤ k) (c : Conn) :
    runOps (some k) ops c = runOps none ops c := by
  induction ops generalizing k c with
  | nil => cases k <;> rfl
  | cons op rest ih =>
      cases k with
      | zero => simp at h
      | succ k =>
          show runOps (some k) rest (execOp c op) = runOps none rest (execOp c op)
          exact ih k (by simpa using h) (execOp c op)

theorem run_supprimer_trouve {st : DBState} {i : Nat} {t : Transaction}
    (h : st.transactions.find? (fun t => decide (t.id = i)) = some t) (fault : Option Nat) :
    run_supprimer fault st i = (runOps fault (supprimer_ops t i) (Conn.ouvrir st)).durable := by
  unfold run_supprimer
  rw [h]

theorem run_supprimer_absent {st : DBState} {i : Nat}
    (h : st.transactions.find? (fun t => decide (t.id = i)) = none) (fault : Option Nat) :
    run_supprimer fault st i = st := by
  unfold run_supprimer
  rw [h]

/-! ### Claim theorems: initialization, listing limit, unknown reverse, atomicity, validation -/

/-- Claim C9: `init_database` is idempotent: on an empty registry it creates
exactly the five seed accounts, each with balance 0; on an already-populated
registry it changes nothing. -/
theorem C9_init_idempotente (st : DBState) :
    (st.comptes = [] → init_database st =
      { st with comptes :=
          [{ code_compte := "INVEST", nom_compte := "Investissement",
             type_compte := "ACTIF", solde_actuel := 0 },
           { code_compte := "SYS_BDC", nom_compte := "Système BDC",
             type_compte := "ACTIF", solde_actuel := 0 },
           { code_compte := "DEP_OP", nom_compte := "Dépenses Opérationnelles",
             type_compte := "CHARGE", solde_actuel := 0 },
           { code_compte := "CHARGE_FIX", nom_compte := "Charges Fixes",
             type_compte := "CHARGE", solde_actuel := 0 },
           { code_compte := "RECETTES", nom_compte := "Recettes",
             type_compte := "PRODUIT", solde_actuel := 0 }] })
  ∧ (st.comptes ≠ [] → init_database st = st)
  ∧ init_database (init_database st) = init_database st := by
  have hne : ∀ s : DBState, s.comptes ≠ [] → init_database s = s := by
    intro s hs
    have hfalse : s.comptes.isEmpty = false := by
      cases hc : s.comptes with
      | nil => exact absurd hc hs
      | cons c cs => rfl
    simp [init_database, hfalse]
  refine ⟨?_, hne st, ?_⟩
  · intro h
    unfold init_database
    rw [h]
    rfl
  · by_cases hc : st.comptes = []
    · have h1 : init_database st =
        { st with comptes := comptes_principaux.map fun p =>
            { code_compte := p.1, nom_compte := p.2.1, type_compte := p.2.2,
              solde_actuel := 0 } } := by
        unfold init_database
        rw [hc]
        rfl
      rw [h1]
      exact hne _ (by simp [comptes_principaux])
    · rw [hne st hc]
      exact hne st hc

/-- Claim C9 witness: on an empty registry the five accounts appear with
balance 0; re-running initialization on the initialized registry is a no-op. -/
theorem C9_witness :
    (base_vide.comptes = [] ∧ init_database base_vide =
      { base_vide with comptes :=
          [{ code_compte := "INVEST", nom_compte := "Investissement",
             type_compte := "ACTIF", solde_actuel := 0 },
           { code_compte := "SYS_BDC", nom_compte := "Système BDC",
             type_compte := "ACTIF", solde_actuel := 0 },
           { code_compte := "DEP_OP", nom_compte := "Dépenses Opérationnelles",
             type_compte := "CHARGE", solde_actuel := 0 },
           { code_compte := "CHARGE_FIX", nom_compte := "Charges Fixes",
             type_compte := "CHARGE", solde_actuel := 0 },
           { code_compte := "RECETTES", nom_compte := "Recettes",
             type_compte := "PRODUIT", solde_actuel := 0 }] })
  ∧ (etat_initial.comptes ≠ [] ∧ init_database etat_initial = etat_initial) :=
  ⟨⟨rfl, (C9_init_idempotente base_vide).1 rfl⟩,
   ⟨by decide, (C9_init_idempotente etat_initial).2.1 (by decide)⟩⟩

/-- Claim C10: calling `get_transactions` with `limit = 0` hits the falsy
`if limit:` guard, so no `LIMIT` clause is appended: the call returns exactly
what a call without a limit returns, namely all stored transactions. -/
theorem C10_limite_zero (st : DBState) :
    get_transactions st (some 0) = get_transactions st none ∧
    (get_transactions st (some 0)).Perm st.transactions := by
  refine ⟨rfl, ?_⟩
  show (sortByDateDesc st.transactions).Perm st.transactions
  exact sortByDateDesc_perm st.transactions

/-- Claim C6: `supprimer_transaction` on an id absent from the store returns
the failure result `(False, "Transaction non trouvée")` and leaves the whole
state (store and balances) unchanged. -/
theorem C6_reverse_inconnu (st : DBState) (i : Nat)
    (h : ∀ t ∈ st.transactions, t.id ≠ i) :
    supprimer_transaction st i = (st, false, "Transaction non trouvée") := by
  have hf : st.transactions.find? (fun t => decide (t.id = i)) = none := by
    rw [List.find?_eq_none]
    intro t ht
    simpa using h t ht
  exact supprimer_transaction_absent hf

/-- Claim C6 witness: reversing id 7 in the initialized (empty-store) state. -/
theorem C6_witness :
    (∀ t ∈ etat_initial.transactions, t.id ≠ 7) ∧
    supprimer_transaction etat_initial 7 = (etat_initial, false, "Transaction non trouvée") :=
  ⟨by decide, C6_reverse_inconnu etat_initial 7 (by decide)⟩

/-- Claim C3: each write is one atomic unit.  Whatever statement of the unit a
fault interrupts, the durable state after rollback-and-close is the exact
pre-call state; a fault-free run commits all three effects, producing exactly
the state of `ajouter_transaction` / `supprimer_transaction`. -/
theorem C3_atomicite (st : DBState) (fault : Option Nat) (d : DateD) (deb cred : String)
    (m : Rat) (desc ty : String) (ref resp : Option String) (i : Nat) :
    (run_ajouter fault st d deb cred m desc ty ref resp = st ∨
      run_ajouter fault st d deb cred m desc ty ref resp =
        (ajouter_transaction st d deb cred m desc ty ref resp).1)
  ∧ run_ajouter none st d deb cred m desc ty ref resp =
      (ajouter_transaction st d deb cred m desc ty ref resp).1
  ∧ (run_supprimer fault st i = st ∨
      run_supprimer fault st i = (supprimer_transaction st i).1)
  ∧ run_supprimer none st i = (supprimer_transaction st i).1 := by
  refine ⟨?_, rfl, ?_, ?_⟩
  · match fault with
    | none => exact Or.inr rfl
    | some 0 => exact Or.inl rfl
    | some 1 => exact Or.inl rfl
    | some 2 => exact Or.inl rfl
    | some 3 => exact Or.inl rfl
    | some (k + 4) =>
        refine Or.inr ?_
        unfold run_ajouter
        rw [runOps_ge (ajouter_ops d deb cred m desc ty ref resp) (k + 4)
          (by simp [ajouter_ops])]
        rfl
  · rcases hf : st.transactions.find? (fun t => decide (t.id = i)) with _ | t
    · exact Or.inl (run_supprimer_absent hf fault)
    · rw [run_supprimer_trouve hf fault, supprimer_transaction_trouve hf]
      match fault with
      | none => exact Or.inr rfl
      | some 0 => exact Or.inl rfl
      | some 1 => exact Or.inl rfl
      | some 2 => exact Or.inl rfl
      | some 3 => exact Or.inl rfl
      | some (k + 4) =>
          refine Or.inr ?_
          rw [runOps_ge (supprimer_ops t i) (k + 4) (by simp [supprimer_ops])]
          rfl
  · rcases hf : st.transactions.find? (fun t => decide (t.id = i)) with _ | t
    · rw [run_supprimer_absent hf none, supprimer_transaction_absent hf]
    · rw [run_supprimer_trouve hf none, supprimer_transaction_trouve hf]
      rfl

/-- Claim C2 (amended): the record path checks, in source order, same account,
then non-positive amount, then empty (stripped) description, each failing fast
with the matching error and no mutation; when all three pass the call proceeds
into `ajouter_transaction`.  There is no unknown-account check (see the
counterexample). -/
theorem C2_validation_ordre (st : DBState) (d : DateD) (deb cred : String) (m : Rat)
    (desc ty : String) (ref resp : Option String) :
    (deb = cred →
      soumettre_transaction st d deb cred m desc ty ref resp =
        (st, some ErreurFormulaire.comptes_identiques))
  ∧ (deb ≠ cred → m ≤ 0 →
      soumettre_transaction st d deb cred m desc ty ref resp =
        (st, some ErreurFormulaire.montant_non_positif))
  ∧ (deb ≠ cred → ¬ m ≤ 0 → desc.trim = "" →
      soumettre_transaction st d deb cred m desc ty ref resp =
        (st, some ErreurFormulaire.description_vide))
  ∧ (deb ≠ cred → ¬ m ≤ 0 → desc.trim ≠ "" →
      soumettre_transaction st d deb cred m desc ty ref resp =
        ((ajouter_transaction st d deb cred m desc ty ref resp).1, none)) := by
  refine ⟨?_, ?_, ?_, ?_⟩
  · intro h1
    simp [soumettre_transaction, h1]
  · intro h1 h2
    simp [soumettre_transaction, h1, h2]
  · intro h1 h2 h3
    simp [soumettre_transaction, h1, h2, h3]
  · intro h1 h2 h3
    simp [soumettre_transaction, h1, h2, h3]

/-- Claim C2 witness: a zero amount between two distinct registered accounts
is rejected with the amount error and the state is untouched. -/
theorem C2_witness :
    (("INVEST" : String) ≠ "RECETTES") ∧ ((0 : Rat) ≤ 0) ∧
    soumettre_transaction etat_initial ⟨2024, 1, 10⟩ "INVEST" "RECETTES" 0 "essai" "BDC"
        none none =
      (etat_initial, some ErreurFormulaire.montant_non_positif) :=
  ⟨by decide, by decide,
   (C2_validation_ordre etat_initial ⟨2024, 1, 10⟩ "INVEST" "RECETTES" 0 "essai" "BDC"
       none none).2.1 (by decide) (by decide)⟩

/-- Claim C2 (counterexample): a record call whose debit code `"FANTOME"` is
not in the registry is NOT rejected — no validation error is produced, the
state mutates, and only the credit side's balance moves, so the balance sum
drops to `-100`. -/
theorem C2_contre_exemple :
    (soumettre_transaction etat_initial ⟨2024, 1, 10⟩ "FANTOME" "INVEST" 100 "achat ciment"
        "BDC" none none).2 = none
  ∧ (soumettre_transaction etat_initial ⟨2024, 1, 10⟩ "FANTOME" "INVEST" 100 "achat ciment"
        "BDC" none none).1 ≠ etat_initial
  ∧ sumSoldes (soumettre_transaction etat_initial ⟨2024, 1, 10⟩ "FANTOME" "INVEST" 100
        "achat ciment" "BDC" none none).1 = -100 := by
  with_unfolding_all decide

/-- State reached by recording `10^16` `INVEST` ← `RECETTES` and then `1`
`SYS_BDC` ← `INVEST`, all codes registered: the second record's credit update
rounds `10^16 - 1` up to `10^16` (tie to even), leaving the balance sum at 1. -/
def etat_arrondi_16 : DBState :=
  (ajouter_transaction64
    (ajouter_transaction64 etat_initial ⟨2024, 1, 10⟩ "INVEST" "RECETTES" 10000000000000000
        "apport" "Investissement" none none).1
    ⟨2024, 1, 11⟩ "SYS_BDC" "INVEST" 1 "transfert" "BDC" none none).1

/-- Claim C1 (counterexample): the sum-zero invariant fails on reachable
states in two independent ways.  (1) A record with the unregistered debit
code `"FANTOME"` is accepted (no unknown-account check exists), its debit
`UPDATE` matches no row, and the sum drops to `-100`.  (2) Even with only
registered codes, binary64 rounding breaks it: with `INVEST` at `10^16`,
recording `1` `SYS_BDC` ← `INVEST` rounds `INVEST`'s new balance back to
`10^16`, leaving the sum at `1`. -/
theorem C1_contre_exemple :
    (Reachable64 (ajouter_transaction64 etat_initial ⟨2024, 1, 10⟩ "FANTOME" "INVEST" 100
        "achat ciment" "BDC" none none).1
      ∧ sumSoldes (ajouter_transaction64 etat_initial ⟨2024, 1, 10⟩ "FANTOME" "INVEST" 100
        "achat ciment" "BDC" none none).1 ≠ 0)
  ∧ (ReachableValide64 etat_arrondi_16 ∧ sumSoldes etat_arrondi_16 = 1) :=
  ⟨⟨Reachable64.record etat_initial ⟨2024, 1, 10⟩ "FANTOME" "INVEST" 100 "achat ciment"
      "BDC" none none Reachable64.init,
    by decide⟩,
   ⟨ReachableValide64.record _ _ _ _ _ _ _ _ _ (by decide) (by decide)
      (ReachableValide64.record _ _ _ _ _ _ _ _ _ (by decide) (by decide)
        ReachableValide64.init),
    by decide⟩⟩

/-- Claim C7 (amended): `get_transactions` orders by date descending only
(`ORDER BY date_transaction DESC` — there is no secondary sort key):
the listing is a permutation of the store sorted by date descending, with
transactions of equal date kept in store (insertion, id-ascending) order,
not id-descending; a positive limit truncates the sorted listing. -/
theorem C7_listing_ordonne (st : DBState) (limit : Option Int) :
    (get_transactions st limit).Pairwise
      (fun a b => b.date_transaction.cle ≤ a.date_transaction.cle)
  ∧ (get_transactions st none).Perm st.transactions
  ∧ (∀ k : Nat, (get_transactions st none).filter
        (fun x => decide (x.date_transaction.cle = k)) =
      st.transactions.filter (fun x => decide (x.date_transaction.cle = k)))
  ∧ (∀ n : Int, 0 < n →
      get_transactions st (some n) = (get_transactions st none).take n.toNat) := by
  refine ⟨?_, sortByDateDesc_perm st.transactions, ?_, ?_⟩
  · have hs := sortByDateDesc_pairwise st.transactions
    match limit with
    | none => exact hs
    | some n =>
        show (if n = 0 then sortByDateDesc st.transactions
          else if n < 0 then sortByDateDesc st.transactions
          else (sortByDateDesc st.transactions).take n.toNat).Pairwise _
        split
        · exact hs
        · split
          · exact hs
          · exact List.Pairwise.sublist (List.take_sublist _ _) hs
  · intro k
    exact sortByDateDesc_filter_cle st.transactions k
  · intro n hn
    show (if n = 0 then sortByDateDesc st.transactions
      else if n < 0 then sortByDateDesc st.transactions
      else (sortByDateDesc st.transactions).take n.toNat) = _
    rw [if_neg (by omega), if_neg (by omega)]
    rfl

/-- Claim C7 witness: with a positive limit the listing is the truncated
no-limit listing. -/
theorem C7_witness :
    get_transactions etat_initial (some 2) =
      (get_transactions etat_initial none).take (Int.toNat 2) :=
  (C7_listing_ordonne etat_initial (some 2)).2.2.2 2 (by decide)

/-- Claim C7 (counterexample): two transactions recorded on the same date get
ids 1 and 2, and the listing returns them in store order (id 1 before id 2),
so ties are NOT broken by id descending as the claim states. -/
theorem C7_contre_exemple :
    ¬ (get_transactions
        (ajouter_transaction
          (ajouter_transaction etat_initial ⟨2024, 1, 10⟩ "INVEST" "RECETTES" 100 "a" "BDC"
              none none).1
          ⟨2024, 1, 10⟩ "SYS_BDC" "DEP_OP" 50 "b" "BDC" none none).1
        none).Pairwise
      (fun a b => b.date_transaction.cle < a.date_transaction.cle ∨
        (b.date_transaction.cle = a.date_transaction.cle ∧ b.id < a.id)) := by
  with_unfolding_all decide

/-! ### Round-trip lemmas -/

theorem find?_append_dernier {ts : List Transaction} {t : Transaction} {i : Nat}
    (h : ∀ u ∈ ts, u.id ≠ i) (ht : t.id = i) :
    (ts ++ [t]).find? (fun x => decide (x.id = i)) = some t := by
  induction ts with
  | nil => simp [List.find?, ht]
  | cons u us ih =>
      have hu : (decide (u.id = i)) = false := by simpa using h u (by simp)
      rw [List.cons_append, List.find?_cons, hu]
      exact ih fun v hv => h v (by simp [hv])

theorem filter_ne_append_dernier {ts : List Transaction} {t : Transaction} {i : Nat}
    (h : ∀ u ∈ ts, u.id ≠ i) (ht : t.id = i) :
    (ts ++ [t]).filter (fun x => decide (x.id ≠ i)) = ts := by
  rw [List.filter_append]
  have h1 : ts.filter (fun x => decide (x.id ≠ i)) = ts :=
    List.filter_eq_self.mpr fun u hu => by simpa using h u hu
  have h2 : [t].filter (fun x => decide (x.id ≠ i)) = [] := by simp [List.filter, ht]
  rw [h1, h2, List.append_nil]

theorem majSolde_touche {code cible : String} (h : code = cible) (m : Rat)
    (nom ty : String) (s : Rat) :
    majSolde m cible ⟨code, nom, ty, s⟩ = ⟨code, nom, ty, s + m⟩ := by
  simp [majSolde, h]

theorem majSolde_manque {code cible : String} (h : code ≠ cible) (m : Rat)
    (nom ty : String) (s : Rat) :
    majSolde m cible ⟨code, nom, ty, s⟩ = ⟨code, nom, ty, s⟩ := by
  simp [majSolde, h]

theorem majSolde_aller_retour (m : Rat) (deb cred : String) (c : Compte) :
    majSolde m cred (majSolde (-m) deb (majSolde (-m) cred (majSolde m deb c))) = c := by
  cases c with
  | mk code nom ty s =>
      by_cases h1 : code = deb <;> by_cases h2 : code = cred
      · rw [majSolde_touche h1, majSolde_touche h2, majSolde_touche h1, majSolde_touche h2]
        have h3 : s + m + -m + -m + m = s := by ring
        rw [h3]
      · rw [majSolde_touche h1, majSolde_manque h2, majSolde_touche h1, majSolde_manque h2]
        have h3 : s + m + -m = s := by ring
        rw [h3]
      · rw [majSolde_manque h1, majSolde_touche h2, majSolde_manque h1, majSolde_touche h2]
        have h3 : s + -m + m = s := by ring
        rw [h3]
      · rw [majSolde_manque h1, majSolde_manque h2, majSolde_manque h1, majSolde_manque h2]

theorem update_solde_aller_retour (cs : List Compte) (m : Rat) (deb cred : String) :
    update_solde (update_solde (update_solde (update_solde cs m deb) (-m) cred) (-m) deb)
      m cred = cs := by
  induction cs with
  | nil => rfl
  | cons c rest ih =>
      simp only [update_solde, List.map_cons] at ih ⊢
      rw [majSolde_aller_retour, ih]

/-- Exact-arithmetic round trip: with unrounded rational updates, a record
immediately followed by reverse of the freshly assigned id succeeds, restores
every account (code, name, type AND balance) exactly, restores the store, and
the transaction no longer appears in the listing. -/
theorem aller_retour_exact (st : DBState) (d : DateD) (deb cred : String) (m : Rat)
    (desc ty : String) (ref resp : Option String)
    (hids : ∀ t ∈ st.transactions, t.id < st.next_id)
    (_hv1 : deb ≠ cred) (_hv2 : 0 < m) (_hv3 : desc.trim ≠ "") :
    (supprimer_transaction (ajouter_transaction st d deb cred m desc ty ref resp).1
        st.next_id).2.1 = true
  ∧ (supprimer_transaction (ajouter_transaction st d deb cred m desc ty ref resp).1
        st.next_id).1.comptes = st.comptes
  ∧ (supprimer_transaction (ajouter_transaction st d deb cred m desc ty ref resp).1
        st.next_id).1.transactions = st.transactions
  ∧ ∀ t ∈ get_transactions (supprimer_transaction
        (ajouter_transaction st d deb cred m desc ty ref resp).1 st.next_id).1 none,
      t.id ≠ st.next_id := by
  have hne : ∀ u ∈ st.transactions, u.id ≠ st.next_id := fun u hu => Nat.ne_of_lt (hids u hu)
  have hfind : (st.transactions ++
        [nouvelle_transaction st d deb cred m desc ty ref resp]).find?
      (fun x => decide (x.id = st.next_id)) =
      some (nouvelle_transaction st d deb cred m desc ty ref resp) :=
    find?_append_dernier hne rfl
  rw [ajouter_transaction_etat]
  rw [supprimer_transaction_trouve hfind]
  have htr : (st.transactions ++
        [nouvelle_transaction st d deb cred m desc ty ref resp]).filter
      (fun x => decide (x.id ≠ st.next_id)) = st.transactions :=
    filter_ne_append_dernier hne rfl
  refine ⟨rfl, ?_, ?_, ?_⟩
  · show update_solde (update_solde (update_solde (update_solde st.comptes m deb) (-m) cred)
        (-m) deb) m cred = st.comptes
    exact update_solde_aller_retour st.comptes m deb cred
  · exact htr
  · intro t ht
    simp only [get_transactions] at ht
    rw [htr] at ht
    exact hne t ((sortByDateDesc_perm st.transactions).mem_iff.mp ht)

/-- Claim C4 (amended): a valid record immediately followed by reverse of the
freshly assigned id succeeds, restores every account (code, name, type AND
balance) to its exact pre-record value, restores the store, and the
transaction no longer appears in the listing — PROVIDED neither the record's
nor the reversal's `REAL` balance updates round (each binary64 effect equals
the exact effect); the counterexample shows the restoration fails when they
do round. -/
theorem C4_aller_retour (st : DBState) (d : DateD) (deb cred : String) (m : Rat)
    (desc ty : String) (ref resp : Option String)
    (hids : ∀ t ∈ st.transactions, t.id < st.next_id)
    (_hv1 : deb ≠ cred) (_hv2 : 0 < m) (_hv3 : desc.trim ≠ "")
    (h64a : (ajouter_transaction64 st d deb cred m desc ty ref resp).1 =
      (ajouter_transaction st d deb cred m desc ty ref resp).1)
    (h64s : supprimer_transaction64 (ajouter_transaction st d deb cred m desc ty ref resp).1
        st.next_id =
      supprimer_transaction (ajouter_transaction st d deb cred m desc ty ref resp).1
        st.next_id) :
    (supprimer_transaction64 (ajouter_transaction64 st d deb cred m desc ty ref resp).1
        st.next_id).2.1 = true
  ∧ (supprimer_transaction64 (ajouter_transaction64 st d deb cred m desc ty ref resp).1
        st.next_id).1.comptes = st.comptes
  ∧ (supprimer_transaction64 (ajouter_transaction64 st d deb cred m desc ty ref resp).1
        st.next_id).1.transactions = st.transactions
  ∧ ∀ t ∈ get_transactions (supprimer_transaction64
        (ajouter_transaction64 st d deb cred m desc ty ref resp).1 st.next_id).1 none,
      t.id ≠ st.next_id := by
  rw [h64a, h64s]
  exact aller_retour_exact st d deb cred m desc ty ref resp hids _hv1 _hv2 _hv3

/-- State holding one recorded transaction of `2^53` from `INVEST` to
`RECETTES` (exactly representable; no rounding yet). -/
def etat_un_grand : DBState :=
  (ajouter_transaction64 etat_initial ⟨2024, 1, 10⟩ "INVEST" "RECETTES" 9007199254740992
      "grand" "BDC" none none).1

/-- Claim C4 (counterexample): with `INVEST` at `2^53`, recording amount 1 and
immediately reversing it does NOT restore the balances: the record's credit
to `INVEST` rounds `2^53 + 1` down to `2^53` (ties to even), and the reversal
then leaves `2^53 - 1`. -/
theorem C4_contre_exemple :
    (supprimer_transaction64
      (ajouter_transaction64 etat_un_grand ⟨2024, 1, 11⟩ "INVEST" "RECETTES" 1 "petit" "BDC"
          none none).1
      etat_un_grand.next_id).1.comptes ≠ etat_un_grand.comptes := by
  decide

/-- Claim C4 witness: a 1000 DH record from `INVEST` to `RECETTES` on the
fresh database rounds nowhere, and immediately reversing it restores the seed
balances. -/
theorem C4_witness :
    (∀ t ∈ etat_initial.transactions, t.id < etat_initial.next_id) ∧
    (ajouter_transaction64 etat_initial ⟨2024, 1, 10⟩ "INVEST" "RECETTES" 1000 "essai"
        "Investissement" none none).1 =
      (ajouter_transaction etat_initial ⟨2024, 1, 10⟩ "INVEST" "RECETTES" 1000 "essai"
        "Investissement" none none).1 ∧
    (supprimer_transaction64 (ajouter_transaction64 etat_initial ⟨2024, 1, 10⟩ "INVEST"
        "RECETTES" 1000 "essai" "Investissement" none none).1
      etat_initial.next_id).1.comptes = etat_initial.comptes :=
  ⟨by decide, by decide,
   (C4_aller_retour etat_initial ⟨2024, 1, 10⟩ "INVEST" "RECETTES" 1000 "essai"
      "Investissement" none none (by decide) (by decide) (by decide)
      (by with_unfolding_all decide) (by decide) (by decide)).2.1⟩

/-! ### Monthly summary lemmas -/

theorem mem_firstDistinct {x : String} {l : List String} : x ∈ firstDistinct l ↔ x ∈ l := by
  induction l with
  | nil => simp [firstDistinct]
  | cons c cs ih =>
      simp only [firstDistinct, List.mem_cons, List.mem_filter, decide_eq_true_eq]
      constructor
      · rintro (rfl | ⟨hx, _⟩)
        · exact Or.inl rfl
        · exact Or.inr (ih.mp hx)
      · rintro (rfl | hx)
        · exact Or.inl rfl
        · by_cases hxc : x = c
          · exact Or.inl hxc
          · exact Or.inr ⟨ih.mpr hx, hxc⟩

theorem nodup_firstDistinct (l : List String) : (firstDistinct l).Nodup := by
  induction l with
  | nil => simp [firstDistinct]
  | cons c cs ih =>
      rw [firstDistinct, List.nodup_cons]
      refine ⟨?_, ih.filter _⟩
      intro hc
      have := (List.mem_filter.mp hc).2
      simp at this

theorem get_synthese_explicite (st : DBState) (y mo ca cm : Nat)
    (hy : y ≠ 0) (hm : mo ≠ 0) :
    get_synthese_mensuelle st (some y) (some mo) ca cm =
      (firstDistinct ((st.transactions.filter (dansMois y mo)).map (·.type_transaction))).map
        fun ty => (ty, sommeReelle (((st.transactions.filter (dansMois y mo)).filter
            fun t => decide (t.type_transaction = ty)).map (·.montant))) := by
  simp only [get_synthese_mensuelle]
  rw [if_neg hy, if_neg hm]

/-- Claim C8 (amended): for any year ≠ 0 and month ≠ 0 (0 or None would be
replaced by the current year/month by the falsy guards), the monthly
summary's keys are exactly the categories having at least one stored
transaction dated in that (year, month); each key maps to the binary64
`SUM()` accumulation, in store order, of the amounts of that category's
in-month transactions — which can differ from their exact sum (see the
counterexample); keys are not duplicated, and transactions outside the month
contribute nothing. -/
theorem C8_synthese_mensuelle (st : DBState) (y mo ca cm : Nat)
    (hy : y ≠ 0) (hm : mo ≠ 0) :
    (∀ ty : String,
      (∃ v, (ty, v) ∈ get_synthese_mensuelle st (some y) (some mo) ca cm) ↔
        ∃ t ∈ st.transactions, t.date_transaction.annee = y ∧ t.date_transaction.mois = mo ∧
          t.type_transaction = ty)
  ∧ (∀ ty v, (ty, v) ∈ get_synthese_mensuelle st (some y) (some mo) ca cm →
      v = sommeReelle ((st.transactions.filter fun t => decide (t.date_transaction.annee = y ∧
          t.date_transaction.mois = mo ∧ t.type_transaction = ty)).map (·.montant)))
  ∧ ((get_synthese_mensuelle st (some y) (some mo) ca cm).map Prod.fst).Nodup := by
  rw [get_synthese_explicite st y mo ca cm hy hm]
  refine ⟨?_, ?_, ?_⟩
  · intro ty
    constructor
    · rintro ⟨v, hv⟩
      rcases List.mem_map.mp hv with ⟨ty', hty', heq⟩
      have hty : ty' = ty := congrArg Prod.fst heq
      subst hty
      rcases List.mem_map.mp (mem_firstDistinct.mp hty') with ⟨t, htf, hteq⟩
      have hmf := List.mem_filter.mp htf
      have hdm := hmf.2
      simp only [dansMois, decide_eq_true_eq] at hdm
      exact ⟨t, hmf.1, hdm.1, hdm.2, hteq⟩
    · rintro ⟨t, htmem, h1, h2, h3⟩
      refine ⟨_, List.mem_map.mpr ⟨ty, ?_, rfl⟩⟩
      apply mem_firstDistinct.mpr
      exact List.mem_map.mpr
        ⟨t, List.mem_filter.mpr ⟨htmem, by simp [dansMois, h1, h2]⟩, h3⟩
  · intro ty v hv
    rcases List.mem_map.mp hv with ⟨ty', hty', heq⟩
    have hty : ty' = ty := congrArg Prod.fst heq
    subst hty
    have hval : sommeReelle (((st.transactions.filter (dansMois y mo)).filter
        fun t => decide (t.type_transaction = ty')).map (·.montant)) = v :=
      congrArg Prod.snd heq
    rw [← hval]
    rw [List.filter_filter]
    congr 1
    refine congrArg _ (List.filter_congr ?_)
    intro t _
    simp [dansMois, Bool.and_comm, Bool.and_left_comm, Bool.and_assoc]
  · rw [List.map_map]
    have hid : (Prod.fst ∘ fun ty => (ty,
        sommeReelle (((st.transactions.filter (dansMois y mo)).filter
          fun t => decide (t.type_transaction = ty)).map (·.montant)))) =
        fun ty : String => ty := rfl
    rw [hid]
    have := nodup_firstDistinct ((st.transactions.filter (dansMois y mo)).map
      (·.type_transaction))
    simpa using this

/-- Scenario C state: January 2024 transactions with categories "BDC" (500)
and "Charge Fixe" (300), plus one February 2024 transaction. -/
def etat_scenario_c : DBState :=
  (ajouter_transaction64
    (ajouter_transaction64
      (ajouter_transaction64 etat_initial ⟨2024, 1, 5⟩ "DEP_OP" "INVEST" 500 "bdc un" "BDC"
          none none).1
      ⟨2024, 1, 20⟩ "CHARGE_FIX" "INVEST" 300 "loyer" "Charge Fixe" none none).1
    ⟨2024, 2, 3⟩ "DEP_OP" "INVEST" 200 "fevrier" "BDC" none none).1

/-- Claim C8 witness: on the Scenario C state the summary for 2024-01 has the
category "BDC" among its keys and duplicate-free keys. -/
theorem C8_witness :
    (2024 ≠ 0) ∧ (1 ≠ 0) ∧
    (∃ v, ("BDC", v) ∈ get_synthese_mensuelle etat_scenario_c (some 2024) (some 1) 2025 6) ∧
    ((get_synthese_mensuelle etat_scenario_c (some 2024) (some 1) 2025 6).map
      Prod.fst).Nodup := by
  refine ⟨by decide, by decide, ?_,
    (C8_synthese_mensuelle etat_scenario_c 2024 1 2025 6 (by decide) (by decide)).2.2⟩
  exact ((C8_synthese_mensuelle etat_scenario_c 2024 1 2025 6 (by decide) (by decide)).1
    "BDC").mpr (by decide)

/-- January 2024 state whose "BDC" amounts are `2^53` and `1`: their binary64
`SUM()` is `2^53`, one less than their exact sum. -/
def etat_somme_53 : DBState :=
  (ajouter_transaction64
    (ajouter_transaction64 etat_initial ⟨2024, 1, 5⟩ "DEP_OP" "INVEST" 9007199254740992
        "grand" "BDC" none none).1
    ⟨2024, 1, 20⟩ "DEP_OP" "INVEST" 1 "petit" "BDC" none none).1

/-- Claim C8 (counterexample): the program's `SUM(montant)` accumulates in
binary64, so the "BDC" entry for 2024-01 is `2^53`, NOT the exact sum
`2^53 + 1` of the stored amounts: the original exact-sum claim is false. -/
theorem C8_contre_exemple :
    (("BDC", (9007199254740992 : Rat)) ∈
      get_synthese_mensuelle etat_somme_53 (some 2024) (some 1) 7 7)
  ∧ ((etat_somme_53.transactions.filter fun t => decide (t.date_transaction.annee = 2024 ∧
      t.date_transaction.mois = 1 ∧ t.type_transaction = "BDC")).map (·.montant)).sum =
      (9007199254740993 : Rat)
  ∧ (9007199254740992 : Rat) ≠ (9007199254740993 : Rat) := by
  refine ⟨by decide, by decide, by decide⟩

/-! ### Per-account balance bookkeeping lemmas -/

theorem majSolde_code (m : Rat) (x : String) (c : Compte) :
    (majSolde m x c).code_compte = c.code_compte := by
  unfold majSolde
  split <;> rfl

theorem majSolde_solde (m : Rat) (x : String) (c : Compte) :
    (majSolde m x c).solde_actuel =
      c.solde_actuel + (if c.code_compte = x then m else 0) := by
  unfold majSolde
  split
  · rfl
  · simp

theorem majSolde_noop {m : Rat} {x : String} {c : Compte} (h : c.code_compte ≠ x) :
    majSolde m x c = c := by
  unfold majSolde
  rw [if_neg h]

theorem update_solde_map_code (cs : List Compte) (m : Rat) (code : String) :
    (update_solde cs m code).map (·.code_compte) = cs.map (·.code_compte) := by
  induction cs with
  | nil => rfl
  | cons c rest ih =>
      simp only [update_solde, List.map_cons] at ih ⊢
      rw [majSolde_code, ih]

theorem update_solde_absent (cs : List Compte) (m : Rat) (code : String)
    (h : code ∉ cs.map (·.code_compte)) : update_solde cs m code = cs := by
  induction cs with
  | nil => rfl
  | cons c rest ih =>
      simp only [List.map_cons, List.mem_cons] at h
      push_neg at h
      simp only [update_solde, List.map_cons] at ih ⊢
      rw [majSolde_noop (fun he => h.1 he.symm), ih h.2]

theorem update_solde_somme (cs : List Compte) (m : Rat) (code : String)
    (hnd : (cs.map (·.code_compte)).Nodup) (hmem : code ∈ cs.map (·.code_compte)) :
    ((update_solde cs m code).map (·.solde_actuel)).sum =
      (cs.map (·.solde_actuel)).sum + m := by
  induction cs with
  | nil => simp at hmem
  | cons c rest ih =>
      rw [List.map_cons, List.nodup_cons] at hnd
      simp only [List.map_cons, List.mem_cons] at hmem
      simp only [update_solde, List.map_cons, List.sum_cons]
      by_cases hc : c.code_compte = code
      · have hrest : List.map (majSolde m code) rest = rest := by
          have h1 : update_solde rest m code = rest :=
            update_solde_absent rest m code (by rw [← hc]; exact hnd.1)
          exact h1
        rw [hrest, majSolde_solde, if_pos hc]
        ring
      · rcases hmem with hmem | hmem
        · exact absurd hmem.symm hc
        · rw [majSolde_noop hc]
          have h1 : ((update_solde rest m code).map (·.solde_actuel)).sum =
              (rest.map (·.solde_actuel)).sum + m := ih hnd.2 hmem
          have h2 : (List.map (fun x => x.solde_actuel) (List.map (majSolde m code) rest)).sum =
              (rest.map (·.solde_actuel)).sum + m := h1
          rw [h2]
          ring

/-! ### Debit/credit total lemmas -/

theorem totalDebit_cons (t : Transaction) (ts : List Transaction) (code : String) :
    totalDebit (t :: ts) code =
      (if t.compte_debit = code then t.montant else 0) + totalDebit ts code := by
  by_cases h : t.compte_debit = code <;> simp [totalDebit, List.filter_cons, h]

theorem totalCredit_cons (t : Transaction) (ts : List Transaction) (code : String) :
    totalCredit (t :: ts) code =
      (if t.compte_credit = code then t.montant else 0) + totalCredit ts code := by
  by_cases h : t.compte_credit = code <;> simp [totalCredit, List.filter_cons, h]

theorem totalDebit_append (ts : List Transaction) (t : Transaction) (code : String) :
    totalDebit (ts ++ [t]) code =
      totalDebit ts code + (if t.compte_debit = code then t.montant else 0) := by
  by_cases h : t.compte_debit = code <;>
    simp [totalDebit, List.filter_append, List.filter_cons, h]

theorem totalCredit_append (ts : List Transaction) (t : Transaction) (code : String) :
    totalCredit (ts ++ [t]) code =
      totalCredit ts code + (if t.compte_credit = code then t.montant else 0) := by
  by_cases h : t.compte_credit = code <;>
    simp [totalCredit, List.filter_append, List.filter_cons, h]

theorem totalDebit_perm {ts us : List Transaction} (h : ts.Perm us) (code : String) :
    totalDebit ts code = totalDebit us code :=
  ((h.filter _).map _).sum_eq

theorem totalCredit_perm {ts us : List Transaction} (h : ts.Perm us) (code : String) :
    totalCredit ts code = totalCredit us code :=
  ((h.filter _).map _).sum_eq

theorem filter_id_eq_single {ts : List Transaction} {i : Nat} {t : Transaction}
    (hnd : (ts.map (·.id)).Nodup)
    (hf : ts.find? (fun x => decide (x.id = i)) = some t) :
    ts.filter (fun x => decide (x.id = i)) = [t] := by
  induction ts with
  | nil => simp at hf
  | cons u us ih =>
      rw [List.map_cons, List.nodup_cons] at hnd
      by_cases hu : u.id = i
      · have hdu : (decide (u.id = i)) = true := by simpa using hu
        simp only [List.find?_cons, hdu] at hf
        have ht : u = t := by simpa using hf
        subst ht
        rw [List.filter_cons_of_pos (by simpa using hu)]
        have hrest : us.filter (fun x => decide (x.id = i)) = [] := by
          rw [List.filter_eq_nil_iff]
          intro x hx hxi
          exact hnd.1 (List.mem_map.mpr ⟨x, hx, by
            have : x.id = i := by simpa using hxi
            rw [this, hu]⟩)
        rw [hrest]
      · have hdu : (decide (u.id = i)) = false := by simpa using hu
        simp only [List.find?_cons, hdu] at hf
        rw [List.filter_cons_of_neg (by simpa using hu)]
        exact ih hnd.2 hf

theorem perm_retrait {ts : List Transaction} {i : Nat} {t : Transaction}
    (hnd : (ts.map (·.id)).Nodup)
    (hf : ts.find? (fun x => decide (x.id = i)) = some t) :
    ts.Perm (t :: ts.filter (fun x => decide (x.id ≠ i))) := by
  have hsplit := List.filter_append_perm (fun x => decide (x.id = i)) ts
  rw [filter_id_eq_single hnd hf] at hsplit
  have hcompl : (fun x : Transaction => !decide (x.id = i)) =
      fun x : Transaction => decide (x.id ≠ i) := by
    funext x
    by_cases h : x.id = i <;> simp [h]
  rw [hcompl] at hsplit
  exact hsplit.symm

/-! ### The per-account balance invariant (C5) -/

theorem soldesCoherents_ajouter (st : DBState) (d : DateD) (deb cred : String) (m : Rat)
    (desc ty : String) (ref resp : Option String) (h : SoldesCoherents st) :
    SoldesCoherents (ajouter_transaction st d deb cred m desc ty ref resp).1 := by
  rw [ajouter_transaction_etat]
  intro c' hc'
  simp only [update_solde] at hc'
  obtain ⟨c1, hc1, rfl⟩ := List.mem_map.mp hc'
  obtain ⟨c, hc, rfl⟩ := List.mem_map.mp hc1
  show (majSolde (-m) cred (majSolde m deb c)).solde_actuel = _
  rw [majSolde_code, majSolde_code]
  rw [majSolde_solde, majSolde_solde, majSolde_code]
  rw [totalDebit_append, totalCredit_append, h c hc]
  simp only [nouvelle_transaction]
  by_cases h1 : c.code_compte = deb <;> by_cases h2 : c.code_compte = cred
  · rw [if_pos h1, if_pos h2, if_pos h1.symm, if_pos h2.symm]
    ring
  · rw [if_pos h1, if_neg h2, if_pos h1.symm, if_neg (fun he => h2 he.symm)]
    ring
  · rw [if_neg h1, if_pos h2, if_neg (fun he => h1 he.symm), if_pos h2.symm]
    ring
  · rw [if_neg h1, if_neg h2, if_neg (fun he => h1 he.symm), if_neg (fun he => h2 he.symm)]
    ring

theorem soldesCoherents_supprimer (st : DBState) (i : Nat)
    (hnd : (st.transactions.map (·.id)).Nodup) (h : SoldesCoherents st) :
    SoldesCoherents (supprimer_transaction st i).1 := by
  rcases hf : st.transactions.find? (fun x => decide (x.id = i)) with _ | t
  · rw [supprimer_transaction_absent hf]
    exact h
  · rw [supprimer_transaction_trouve hf]
    intro c' hc'
    simp only [update_solde] at hc'
    obtain ⟨c1, hc1, rfl⟩ := List.mem_map.mp hc'
    obtain ⟨c, hc, rfl⟩ := List.mem_map.mp hc1
    show (majSolde t.montant t.compte_credit
      (majSolde (-t.montant) t.compte_debit c)).solde_actuel = _
    rw [majSolde_code, majSolde_code]
    rw [majSolde_solde, majSolde_solde, majSolde_code]
    rw [h c hc]
    have hperm := perm_retrait hnd hf
    rw [totalDebit_perm hperm, totalCredit_perm hperm, totalDebit_cons, totalCredit_cons]
    by_cases h1 : c.code_compte = t.compte_debit <;>
      by_cases h2 : c.code_compte = t.compte_credit
    · rw [if_pos h1, if_pos h2, if_pos h1.symm, if_pos h2.symm]
      ring
    · rw [if_pos h1, if_neg h2, if_pos h1.symm, if_neg (fun he => h2 he.symm)]
      ring
    · rw [if_neg h1, if_pos h2, if_neg (fun he => h1 he.symm), if_pos h2.symm]
      ring
    · rw [if_neg h1, if_neg h2, if_neg (fun he => h1 he.symm), if_neg (fun he => h2 he.symm)]
      ring

/-- Well-formedness carried by every reachable state: stored ids are below the
AUTOINCREMENT counter, ids are duplicate-free, and balances agree with the
stored transactions. -/
def EtatCoherent (st : DBState) : Prop :=
  (∀ t ∈ st.transactions, t.id < st.next_id) ∧
  (st.transactions.map (·.id)).Nodup ∧
  SoldesCoherents st

theorem etatCoherent_ajouter (st : DBState) (d : DateD) (deb cred : String) (m : Rat)
    (desc ty : String) (ref resp : Option String) (h : EtatCoherent st) :
    EtatCoherent (ajouter_transaction st d deb cred m desc ty ref resp).1 := by
  obtain ⟨hlt, hnd, hsol⟩ := h
  refine ⟨?_, ?_, soldesCoherents_ajouter st d deb cred m desc ty ref resp hsol⟩
  · rw [ajouter_transaction_etat]
    intro t ht
    rcases List.mem_append.mp ht with ht | ht
    · exact Nat.lt_succ_of_lt (hlt t ht)
    · have heq : t = nouvelle_transaction st d deb cred m desc ty ref resp := by
        simpa using ht
      rw [heq]
      exact Nat.lt_succ_self _
  · rw [ajouter_transaction_etat]
    show ((st.transactions ++
      [nouvelle_transaction st d deb cred m desc ty ref resp]).map (·.id)).Nodup
    rw [List.map_append, List.nodup_append]
    refine ⟨hnd, by simp, ?_⟩
    intro a ha hb
    obtain ⟨x, hx, rfl⟩ := List.mem_map.mp ha
    have hxa : x.id = st.next_id := by
      simpa [nouvelle_transaction] using hb
    exact Nat.ne_of_lt (hlt x hx) hxa

theorem etatCoherent_supprimer (st : DBState) (i : Nat) (h : EtatCoherent st) :
    EtatCoherent (supprimer_transaction st i).1 := by
  obtain ⟨hlt, hnd, hsol⟩ := h
  have hs := soldesCoherents_supprimer st i hnd hsol
  rcases hf : st.transactions.find? (fun x => decide (x.id = i)) with _ | t
  · rw [supprimer_transaction_absent hf] at hs ⊢
    exact ⟨hlt, hnd, hs⟩
  · rw [supprimer_transaction_trouve hf] at hs ⊢
    refine ⟨?_, ?_, hs⟩
    · intro u hu
      exact hlt u (List.mem_filter.mp hu).1
    · exact List.Nodup.sublist ((List.filter_sublist _).map _) hnd

theorem reachable_coherent {st : DBState} (h : Reachable st) : EtatCoherent st := by
  induction h with
  | init => exact ⟨by decide, by decide, by with_unfolding_all decide⟩
  | record st d deb cred m desc ty ref resp _ ih =>
      exact etatCoherent_ajouter st d deb cred m desc ty ref resp ih
  | reverse st i _ ih => exact etatCoherent_supprimer st i ih

/-- Claim C5 (amended): in every reachable state along which no balance
`UPDATE` ever rounded (each step's binary64 effect equals the exact effect),
each account's balance equals the sum of amounts of currently stored
transactions debiting it minus the sum of amounts of stored transactions
crediting it; the counterexample shows binary64 accumulation breaks the exact
identity at reachable states. -/
theorem C5_coherence_soldes (st : DBState) (h : Reachable64SansArrondi st) :
    SoldesCoherents st :=
  (reachable_coherent (reachable64_sans_arrondi_exact h)).2.2

/-- Claim C5 (counterexample): recording `2^53` and then `1`, both debiting
`INVEST`, is reachable, but `INVEST`'s stored balance is the rounded
`fl(2^53 + 1) = 2^53`, not the exact debit total `2^53 + 1`: the exact
balance identity is false of the program. -/
theorem C5_contre_exemple :
    Reachable64 (ajouter_transaction64 etat_un_grand ⟨2024, 1, 11⟩ "INVEST" "RECETTES" 1
        "petit" "BDC" none none).1
  ∧ ¬ SoldesCoherents (ajouter_transaction64 etat_un_grand ⟨2024, 1, 11⟩ "INVEST" "RECETTES"
        1 "petit" "BDC" none none).1 :=
  ⟨Reachable64.record _ _ _ _ _ _ _ _ _
    (Reachable64.record _ _ _ _ _ _ _ _ _ Reachable64.init),
   by decide⟩

/-- Claim C5 witness: the identity holds in the state reached by one
rounding-free record of 1000 from `INVEST` to `RECETTES`. -/
theorem C5_witness :
    Reachable64SansArrondi (ajouter_transaction64 etat_initial ⟨2024, 1, 10⟩ "INVEST"
        "RECETTES" 1000 "apport" "Investissement" none none).1
  ∧ SoldesCoherents (ajouter_transaction64 etat_initial ⟨2024, 1, 10⟩ "INVEST" "RECETTES"
        1000 "apport" "Investissement" none none).1 := by
  have h : Reachable64SansArrondi (ajouter_transaction64 etat_initial ⟨2024, 1, 10⟩ "INVEST"
      "RECETTES" 1000 "apport" "Investissement" none none).1 :=
    Reachable64SansArrondi.record etat_initial ⟨2024, 1, 10⟩ "INVEST" "RECETTES" 1000
      "apport" "Investissement" none none (by decide) Reachable64SansArrondi.init
  exact ⟨h, C5_coherence_soldes _ h⟩

/-! ### The sum-zero invariant (C1, amended) -/

/-- Inductive invariant for the sum-zero property: account codes are
duplicate-free, every stored transaction references registered codes, and the
balance sum is 0. -/
def InvSomme (st : DBState) : Prop :=
  (st.comptes.map (·.code_compte)).Nodup ∧
  (∀ t ∈ st.transactions, t.compte_debit ∈ st.comptes.map (·.code_compte) ∧
    t.compte_credit ∈ st.comptes.map (·.code_compte)) ∧
  sumSoldes st = 0

theorem reachableValide_invSomme {st : DBState} (h : ReachableValide st) : InvSomme st := by
  induction h with
  | init =>
      refine ⟨by decide, by decide, by with_unfolding_all decide⟩
  | record st d deb cred m desc ty ref resp hdeb hcred _ ih =>
      obtain ⟨hnd, htc, hsum⟩ := ih
      rw [ajouter_transaction_etat]
      have hmap1 : (update_solde st.comptes m deb).map (·.code_compte) =
          st.comptes.map (·.code_compte) := update_solde_map_code _ _ _
      have hmap2 : (update_solde (update_solde st.comptes m deb) (-m) cred).map
          (·.code_compte) = st.comptes.map (·.code_compte) := by
        rw [update_solde_map_code, hmap1]
      refine ⟨?_, ?_, ?_⟩
      · show ((update_solde (update_solde st.comptes m deb) (-m) cred).map
          (·.code_compte)).Nodup
        rw [hmap2]
        exact hnd
      · intro t ht
        show t.compte_debit ∈ (update_solde (update_solde st.comptes m deb) (-m) cred).map
            (·.code_compte) ∧ t.compte_credit ∈ _
        rw [hmap2]
        rcases List.mem_append.mp ht with ht | ht
        · exact htc t ht
        · have heq : t = nouvelle_transaction st d deb cred m desc ty ref resp := by
            simpa using ht
          rw [heq]
          exact ⟨hdeb, hcred⟩
      · show ((update_solde (update_solde st.comptes m deb) (-m) cred).map
          (·.solde_actuel)).sum = 0
        rw [update_solde_somme _ _ _ (by rw [hmap1]; exact hnd) (by rw [hmap1]; exact hcred)]
        rw [update_solde_somme _ _ _ hnd hdeb]
        have hs : (st.comptes.map (·.solde_actuel)).sum = 0 := hsum
        rw [hs]
        ring
  | reverse st i _ ih =>
      obtain ⟨hnd, htc, hsum⟩ := ih
      rcases hf : st.transactions.find? (fun x => decide (x.id = i)) with _ | t
      · rw [supprimer_transaction_absent hf]
        exact ⟨hnd, htc, hsum⟩
      · rw [supprimer_transaction_trouve hf]
        have hmem := List.mem_of_find?_eq_some hf
        obtain ⟨hdeb, hcred⟩ := htc t hmem
        have hmap1 : (update_solde st.comptes (-t.montant) t.compte_debit).map
            (·.code_compte) = st.comptes.map (·.code_compte) := update_solde_map_code _ _ _
        have hmap2 : (update_solde (update_solde st.comptes (-t.montant) t.compte_debit)
            t.montant t.compte_credit).map (·.code_compte) =
            st.comptes.map (·.code_compte) := by
          rw [update_solde_map_code, hmap1]
        refine ⟨?_, ?_, ?_⟩
        · show ((update_solde (update_solde st.comptes (-t.montant) t.compte_debit)
            t.montant t.compte_credit).map (·.code_compte)).Nodup
          rw [hmap2]
          exact hnd
        · intro u hu
          show u.compte_debit ∈ (update_solde (update_solde st.comptes (-t.montant)
              t.compte_debit) t.montant t.compte_credit).map (·.code_compte) ∧
            u.compte_credit ∈ _
          rw [hmap2]
          exact htc u (List.mem_filter.mp hu).1
        · show ((update_solde (update_solde st.comptes (-t.montant) t.compte_debit)
            t.montant t.compte_credit).map (·.solde_actuel)).sum = 0
          rw [update_solde_somme _ _ _ (by rw [hmap1]; exact hnd)
            (by rw [hmap1]; exact hcred)]
          rw [update_solde_somme _ _ _ hnd hdeb]
          have hs : (st.comptes.map (·.solde_actuel)).sum = 0 := hsum
          rw [hs]
          ring

/-- Claim C1 (amended): in every state reachable by record/reverse calls whose
record operations only use account codes present in the registry AND along
which no balance `UPDATE` rounds (each step's binary64 effect equals the
exact effect), the sum of all account balances is exactly 0.  Both provisos
are necessary: see the counterexample. -/
theorem C1_somme_nulle (st : DBState) (h : ReachableValideSansArrondi st) :
    sumSoldes st = 0 :=
  (reachableValide_invSomme (reachableValide_sans_arrondi_exact h)).2.2

/-- Claim C1 witness: after one rounding-free 1000 DH record between two
registered accounts, the balance sum is still 0. -/
theorem C1_witness :
    ReachableValideSansArrondi (ajouter_transaction64 etat_initial ⟨2024, 1, 10⟩ "INVEST"
        "RECETTES" 1000 "apport" "Investissement" none none).1
  ∧ sumSoldes (ajouter_transaction64 etat_initial ⟨2024, 1, 10⟩ "INVEST" "RECETTES" 1000
        "apport" "Investissement" none none).1 = 0 := by
  have h : ReachableValideSansArrondi (ajouter_transaction64 etat_initial ⟨2024, 1, 10⟩
      "INVEST" "RECETTES" 1000 "apport" "Investissement" none none).1 :=
    ReachableValideSansArrondi.record etat_initial ⟨2024, 1, 10⟩ "INVEST" "RECETTES" 1000
      "apport" "Investissement" none none (by decide) (by decide) (by decide)
      ReachableValideSansArrondi.init
  exact ⟨h, C1_somme_nulle _ h⟩
